import Mathlib

/-!
Verification development for the Chart_Calculator natal-chart service
(`src/app.py`).  Longitudes are modelled as rationals; Python's `%` on a
positive modulus and `round(x, n)` are modelled explicitly below.  The
external collaborators (Swiss ephemeris / flatlib / tz database) are
modelled as oracles supplied per request, mirroring the call boundaries
of the source.
-/

/-- Python `round(x, 2)` modelled over ℚ.  Python rounds half to even on
the underlying binary float; no statement below depends on an exact
half-cent tie, where the two conventions could differ. -/
def round2 (x : ℚ) : ℚ := ((round (x * 100) : ℤ) : ℚ) / 100

/-- Python `round(x, 4)` modelled over ℚ (same tie caveat as `round2`). -/
def round4 (x : ℚ) : ℚ := ((round (x * 10000) : ℤ) : ℚ) / 10000

/-- Python `x % m` for a positive modulus: the representative in `[0, m)`
(the sign of the result follows the divisor). -/
def pymod (x m : ℚ) : ℚ := x - m * ⌊x / m⌋

/-- `SIGNS` from app.py. -/
def SIGNS : List String :=
  ["Aries", "Taurus", "Gemini", "Cancer", "Leo", "Virgo",
   "Libra", "Scorpio", "Sagittarius", "Capricorn", "Aquarius", "Pisces"]

/-- `lon_to_sign_deg` from app.py: normalize by `% 360`, index by
`int(lon // 30)`, degree-in-sign rounded to 2 decimals. -/
def lon_to_sign_deg (lon : ℚ) : String × ℚ :=
  let l := pymod lon 360
  let sign_index := (⌊l / 30⌋).toNat
  let deg_in_sign := l - (sign_index : ℚ) * 30
  (SIGNS.getD sign_index "", round2 deg_in_sign)

/-- `ASPECTS` from app.py: (name, exact_degrees, max_orb_degrees). -/
def ASPECTS : List (String × ℚ × ℚ) :=
  [("conjunction", 0, 8),
   ("opposition", 180, 8),
   ("trine", 120, 7),
   ("square", 90, 6),
   ("sextile", 60, 5)]

/-- One entry of `asp_results` in app.py. -/
structure AspectMatch where
  a : String
  b : String
  type : String
  orb : ℚ
  dist : ℚ
  exact : ℚ
deriving DecidableEq, Repr

/-- `names_for_aspects` before filtering (app.py lines 282-285). -/
def NAMES_FOR_ASPECTS : List String :=
  ["Sun", "Moon", "Mercury", "Venus", "Mars", "Jupiter", "Saturn",
   "Uranus", "Neptune", "Pluto", "North Node", "South Node"]

/-- The filter `[n for n in names_for_aspects if n in body_lons]`. -/
def namesForAspects (bl : String → Option ℚ) : List String :=
  NAMES_FOR_ASPECTS.filter (fun n => (bl n).isSome)

/-- `dist = min(abs(lonA - lonB), 360.0 - abs(lonA - lonB))` where
`lonA = body_lons[na] % 360.0` (app.py lines 290-293). -/
def pairDist (bl : String → Option ℚ) (na nb : String) : ℚ :=
  min |pymod ((bl na).getD 0) 360 - pymod ((bl nb).getD 0) 360|
      (360 - |pymod ((bl na).getD 0) 360 - pymod ((bl nb).getD 0) 360|)

/-- The inner aspect-table scan for one pair (app.py lines 294-305):
first entry with `|dist - exact| <= orb` wins, recorded with orb and
dist rounded to 2 decimals. -/
def pairAspect (bl : String → Option ℚ) (na nb : String) : Option AspectMatch :=
  match ASPECTS.find? (fun t => decide (|pairDist bl na nb - t.2.1| ≤ t.2.2)) with
  | some (name, ex, _) =>
    some ⟨na, nb, name, round2 |pairDist bl na nb - ex|, round2 (pairDist bl na nb), ex⟩
  | none => none

/-- The pair enumeration `for i, na in enumerate(...): for nb in
names_for_aspects[i+1:]` (app.py lines 289-291). -/
def aspectLoop (bl : String → Option ℚ) : List String → List AspectMatch
  | [] => []
  | na :: rest => rest.filterMap (fun nb => pairAspect bl na nb) ++ aspectLoop bl rest

/-- The whole aspect block of app.py (lines 288-305) as a function of the
`body_lons` mapping. -/
def findAspects (bl : String → Option ℚ) : List AspectMatch :=
  aspectLoop bl (namesForAspects bl)

/-- The ordered pairs the source's nested loop visits, for a given name
list: `(names[i], names[j])` for `i < j`, in loop order. -/
def canonPairs : List String → List (String × String)
  | [] => []
  | a :: rest => rest.map (fun b => (a, b)) ++ canonPairs rest

/-! ### Time parsing: `datetime.strptime(_, "%Y-%m-%d %H:%M")`

The stdlib compiles the format to a regex; each directive below lists the
regex alternatives in their order, and a later literal mismatch
backtracks into earlier alternatives, as the regex engine does.  The
match need not consume the whole string; leftover input is the
"unconverted data remains" error. -/

/-- `%Y`: exactly four digits. -/
def yearAlts : List Char → List (Nat × List Char)
  | a :: b :: c :: d :: rest =>
    if a.isDigit && b.isDigit && c.isDigit && d.isDigit then
      [((a.toNat - 48) * 1000 + (b.toNat - 48) * 100 + (c.toNat - 48) * 10 + (d.toNat - 48),
        rest)]
    else []
  | _ => []

/-- `%m`: the regex `1[0-2]|0[1-9]|[1-9]`. -/
def monthAlts (cs : List Char) : List (Nat × List Char) :=
  (match cs with
   | a :: b :: rest =>
     (if a == '1' && (b == '0' || b == '1' || b == '2') then
        [(10 + (b.toNat - 48), rest)] else []) ++
     (if a == '0' && b.isDigit && b != '0' then [(b.toNat - 48, rest)] else [])
   | _ => []) ++
  (match cs with
   | a :: rest => if a.isDigit && a != '0' then [(a.toNat - 48, rest)] else []
   | _ => [])

/-- `%d`: the regex `3[01]|[12]\d|0[1-9]|[1-9]`. -/
def dayAlts (cs : List Char) : List (Nat × List Char) :=
  (match cs with
   | a :: b :: rest =>
     (if a == '3' && (b == '0' || b == '1') then [(30 + (b.toNat - 48), rest)] else []) ++
     (if (a == '1' || a == '2') && b.isDigit then
        [((a.toNat - 48) * 10 + (b.toNat - 48), rest)] else []) ++
     (if a == '0' && b.isDigit && b != '0' then [(b.toNat - 48, rest)] else [])
   | _ => []) ++
  (match cs with
   | a :: rest => if a.isDigit && a != '0' then [(a.toNat - 48, rest)] else []
   | _ => [])

/-- `%H`: the regex `2[0-3]|[0-1]\d|\d`. -/
def hourAlts (cs : List Char) : List (Nat × List Char) :=
  (match cs with
   | a :: b :: rest =>
     (if a == '2' && (b == '0' || b == '1' || b == '2' || b == '3') then
        [(20 + (b.toNat - 48), rest)] else []) ++
     (if (a == '0' || a == '1') && b.isDigit then
        [((a.toNat - 48) * 10 + (b.toNat - 48), rest)] else [])
   | _ => []) ++
  (match cs with
   | a :: rest => if a.isDigit then [(a.toNat - 48, rest)] else []
   | _ => [])

/-- `%M`: the regex `[0-5]\d|\d`. -/
def minuteAlts (cs : List Char) : List (Nat × List Char) :=
  (match cs with
   | a :: b :: rest =>
     if a.isDigit && a.toNat - 48 ≤ 5 && b.isDigit then
       [((a.toNat - 48) * 10 + (b.toNat - 48), rest)] else []
   | _ => []) ++
  (match cs with
   | a :: rest => if a.isDigit then [(a.toNat - 48, rest)] else []
   | _ => [])

/-- Try each alternative in order against the rest of the format
(regex alternation with backtracking). -/
def firstSome {β : Type} (alts : List (Nat × List Char)) (k : Nat → List Char → Option β) :
    Option β :=
  match alts with
  | [] => none
  | (v, rest) :: more =>
    match k v rest with
    | some r => some r
    | none => firstSome more k

/-- Match one literal character of the format. -/
def lit (c : Char) : List Char → Option (List Char)
  | a :: rest => if a == c then some rest else none
  | [] => none

/-- The compiled regex for `"%Y-%m-%d %H:%M"`: returns the captured
fields and the unconsumed input. -/
def matchFormat (cs : List Char) : Option ((Nat × Nat × Nat × Nat × Nat) × List Char) :=
  firstSome (yearAlts cs) fun y s1 =>
  (lit '-' s1).bind fun s2 =>
  firstSome (monthAlts s2) fun mo s3 =>
  (lit '-' s3).bind fun s4 =>
  firstSome (dayAlts s4) fun d s5 =>
  (lit ' ' s5).bind fun s6 =>
  firstSome (hourAlts s6) fun h s7 =>
  (lit ':' s7).bind fun s8 =>
  firstSome (minuteAlts s8) fun mi s9 =>
  some ((y, mo, d, h, mi), s9)

def isLeap (y : Nat) : Bool := (y % 4 == 0 && y % 100 != 0) || y % 400 == 0

def daysInMonth (y m : Nat) : Nat :=
  if m == 2 then (if isLeap y then 29 else 28)
  else if m == 4 || m == 6 || m == 9 || m == 11 then 30
  else 31

/-- `datetime.strptime(f"{date_str} {time_str}", "%Y-%m-%d %H:%M")`:
regex match, whole-string check, then the `datetime` constructor's
range validation. -/
def strptime_natal (date_str time_str : String) : Except String (Nat × Nat × Nat × Nat × Nat) :=
  match matchFormat (date_str ++ " " ++ time_str).toList with
  | none =>
    .error ("time data '" ++ (date_str ++ " " ++ time_str) ++
      "' does not match format '%Y-%m-%d %H:%M'")
  | some ((y, mo, d, h, mi), rest) =>
    if rest.isEmpty then
      if y == 0 then .error "year 0 is out of range"
      else if daysInMonth y mo < d then .error "day is out of range for month"
      else .ok (y, mo, d, h, mi)
    else .error ("unconverted data remains: " ++ String.mk rest)

/-- A naive civil datetime `(year, month, day, hour, minute)`. -/
abbrev DT := Nat × Nat × Nat × Nat × Nat

/-- The `dateutil.tz` collaborator: `gettz` returns `none` for an
unknown zone name, otherwise the zone's local-to-UTC conversion
(what `replace(tzinfo=...)` + `astimezone(tz.UTC)` performs). -/
abbrev TZDB := String → Option (DT → DT)

/-- `to_utc_iso` from app.py: unknown zone is rejected first, then the
combined date/time string is parsed, then converted to UTC. -/
def to_utc_iso (tzdb : TZDB) (date_str time_str tzname : String) : Except String DT :=
  match tzdb tzname with
  | none => .error "Invalid timezone string. Use IANA, e.g., 'America/New_York'."
  | some conv =>
    match strptime_natal date_str time_str with
    | .error e => .error e
    | .ok naive => .ok (conv naive)

/-! ### Request validation (`NatalInput` and its pydantic validator) -/

/-- The keys of `HOUSE_MAP` in app.py, in insertion order (the values
are flatlib house-system codes, external to this model). -/
def HOUSE_MAP_KEYS : List String :=
  ["Placidus", "Koch", "Porphyry", "Porphyrius", "Regiomontanus", "Campanus",
   "Equal", "WholeSign"]

def houseErrorMsg : String :=
  "house_system must be one of: " ++ String.intercalate ", " HOUSE_MAP_KEYS

/-- The `valid_house` validator attached to `NatalInput` (app.py lines
160-165): exact, case-sensitive membership in `HOUSE_MAP`.  (app.py
lines 167-181 define an `ALIASES` table and a second `valid_house` at
module level, outside any model class; pydantic only collects
validators from the class body, so that second validator is never
attached and has no effect on requests.) -/
def valid_house (v : String) : Except String String :=
  if HOUSE_MAP_KEYS.contains v then .ok v else .error houseErrorMsg

/-- The dead module-level alias table (app.py lines 167-173), kept for
reference; no request path consults it. -/
def ALIASES : List (String × String) :=
  [("porphyry", "Porphyry"), ("porphyrius", "Porphyrius"), ("wholesign", "WholeSign"),
   ("whole sign", "WholeSign"), ("whole-sign", "WholeSign")]

structure NatalInput where
  date : String
  time : String
  timezone : String
  latitude : ℚ
  longitude : ℚ
  house_system : String
deriving DecidableEq, Repr

/-- A request body before pydantic validation: `none` marks an absent
field.  `date`, `time`, `timezone`, `latitude`, `longitude` are
required (`Field(...)`); `house_system` defaults to `"Placidus"`,
and pydantic does not run the validator on an applied default. -/
structure RawNatal where
  date : Option String
  time : Option String
  timezone : Option String
  latitude : Option ℚ
  longitude : Option ℚ
  house_system : Option String
deriving DecidableEq, Repr

/-- Pydantic model construction for `NatalInput`. -/
def parseNatalInput (r : RawNatal) : Except String NatalInput :=
  match r.date with
  | none => .error "Field required: date"
  | some date =>
    match r.time with
    | none => .error "Field required: time"
    | some time =>
      match r.timezone with
      | none => .error "Field required: timezone"
      | some tzname =>
        match r.latitude with
        | none => .error "Field required: latitude"
        | some lat =>
          match r.longitude with
          | none => .error "Field required: longitude"
          | some lng =>
            match r.house_system with
            | none => .ok ⟨date, time, tzname, lat, lng, "Placidus"⟩
            | some hs =>
              match valid_house hs with
              | .error e => .error e
              | .ok hs => .ok ⟨date, time, tzname, lat, lng, hs⟩

/-! ### The external ephemeris collaborator and `swe_calc_lonlat` -/

/-- Outcome of one `swe.calc_ut` call: a returned value tuple, or a
raised exception. -/
inductive SweRes where
  | ok (vals : List ℚ)
  | exn (msg : String)
deriving DecidableEq, Repr

/-- One request's Swiss-ephemeris oracle: the three `swe.calc_ut`
attempts of `swe_calc_lonlat` (with-speed, without-speed, Moshier),
indexed by body label since the request fixes one Julian day. -/
structure SweOracle where
  speed : String → SweRes
  noSpeed : String → SweRes
  moshier : String → SweRes

/-- `swe_calc_lonlat` from app.py: each attempt is used when it returns
a tuple of length ≥ 2; an exception or a short tuple falls through to
the next attempt; the Moshier attempt's exception propagates and its
short tuple raises `RuntimeError`. -/
def swe_calc_lonlat (o : SweOracle) (label : String) : Except String (ℚ × ℚ) :=
  match o.speed label with
  | .ok (a :: b :: _) => .ok (pymod a 360, b)
  | _ =>
    match o.noSpeed label with
    | .ok (a :: b :: _) => .ok (pymod a 360, b)
    | _ =>
      match o.moshier label with
      | .exn m => .error m
      | .ok (a :: b :: _) => .ok (pymod a 360, b)
      | .ok _ => .error "pyswisseph returned invalid tuple"

/-- One request's view of the external collaborators inside `natal`:
the per-body calculator, the flatlib node lookup (`chart.get(NODE_ID)`),
the angles, and the house cusps.  Exceptions are `.error`. -/
structure Ephem where
  swe : SweOracle
  node : Except String ℚ
  asc : Except String ℚ
  mc : Except String ℚ
  cusp : Nat → Except String ℚ

/-! ### The `natal` handler -/

def PLANET_LABELS : List String :=
  ["Sun", "Moon", "Mercury", "Venus", "Mars", "Jupiter", "Saturn",
   "Uranus", "Neptune", "Pluto"]

/-- One entry of the `planets` list: a success dict, or the
`{"name": ..., "error": ...}` dict appended when the body's
computation raised. -/
inductive PlanetEntry where
  | ok (name sign : String) (deg lon lat speed : ℚ)
  | err (name error : String)
deriving DecidableEq, Repr

def PlanetEntry.name : PlanetEntry → String
  | .ok n _ _ _ _ _ => n
  | .err n _ => n

def PlanetEntry.isOk : PlanetEntry → Bool
  | .ok _ _ _ _ _ _ => true
  | .err _ _ => false

/-- The body of the per-planet loop (app.py lines 229-246). -/
def planetEntry (o : SweOracle) (label : String) : PlanetEntry :=
  match swe_calc_lonlat o label with
  | .ok (lon, lat) =>
    .ok label (lon_to_sign_deg lon).1 (lon_to_sign_deg lon).2 (round4 lon) (round4 lat) 0
  | .error e => .err label ("calc failed: " ++ e)

/-- The node block (app.py lines 248-270): on success both node entries
are appended; on an exception neither is. -/
def nodeEntries (e : Ephem) : List PlanetEntry :=
  match e.node with
  | .error _ => []
  | .ok l =>
    let node_lon := pymod l 360
    let south_lon := pymod (node_lon + 180) 360
    [.ok "North Node" (lon_to_sign_deg node_lon).1 (lon_to_sign_deg node_lon).2
        (round4 node_lon) 0 0,
     .ok "South Node" (lon_to_sign_deg south_lon).1 (lon_to_sign_deg south_lon).2
        (round4 south_lon) 0 0]

/-- One assignment of the dict comprehension: a success dict binds its
name to its `lon`, an error dict binds nothing (`"lon" in p` fails). -/
def bodyLonsStep (f : String → Option ℚ) (p : PlanetEntry) : String → Option ℚ :=
  match p with
  | .ok n _ _ lon _ _ => fun m => if m == n then some lon else f m
  | .err _ _ => f

/-- The dict comprehension
`{p["name"]: p.get("lon") for p in planets if "lon" in p}`:
later entries overwrite earlier ones, error entries carry no `lon`. -/
def bodyLons (planets : List PlanetEntry) : String → Option ℚ :=
  planets.foldl bodyLonsStep (fun _ => none)

/-- The `include nodes if present` re-insertion (app.py lines 277-280):
`next(p["lon"] for p in planets if p["name"] == x)` takes the first
entry with that name and indexes `"lon"`, a `KeyError` if that entry is
an error dict. -/
def addNodeLon (planets : List PlanetEntry) (x : String) (f : String → Option ℚ) :
    Except String (String → Option ℚ) :=
  if planets.any (fun p => p.name == x) then
    match planets.find? (fun p => p.name == x) with
    | some (.ok _ _ _ lon _ _) => .ok (fun m => if m == x then some lon else f m)
    | _ => .error "'lon'"
  else .ok f

def natalBodyLons (planets : List PlanetEntry) : Except String (String → Option ℚ) :=
  match addNodeLon planets "North Node" (bodyLons planets) with
  | .error msg => .error msg
  | .ok f1 => addNodeLon planets "South Node" f1

structure AngleObj where
  name : String
  sign : String
  deg : ℚ
  lon : ℚ
deriving DecidableEq, Repr

/-- `angle_to_obj` from app.py. -/
def angle_to_obj (name : String) (lon : ℚ) : AngleObj :=
  ⟨name, (lon_to_sign_deg lon).1, (lon_to_sign_deg lon).2, round4 (pymod lon 360)⟩

structure HouseEntry where
  n : Nat
  sign : String
  deg : ℚ
  lon : ℚ
deriving DecidableEq, Repr

/-- The houses loop (app.py lines 210-214) over the given house
indices; the first cusp failure aborts the request. -/
def housesListAux (cusp : Nat → Except String ℚ) : List Nat → Except String (List HouseEntry)
  | [] => .ok []
  | i :: rest =>
    match cusp i with
    | .error msg => .error msg
    | .ok cuspLon =>
      match housesListAux cusp rest with
      | .error msg => .error msg
      | .ok hs =>
        .ok (⟨i, (lon_to_sign_deg cuspLon).1, (lon_to_sign_deg cuspLon).2,
              round4 (pymod cuspLon 360)⟩ :: hs)

/-- `for i in range(1, 13)` of the houses loop. -/
def housesList (e : Ephem) : Except String (List HouseEntry) :=
  housesListAux e.cusp ((List.range 12).map (· + 1))

/-- The JSON body returned by `natal` (the UTC timestamp is kept as the
datetime rather than its ISO rendering). -/
structure NatalResponse where
  house_system : String
  datetime_utc : DT
  angles_ASC : AngleObj
  angles_MC : AngleObj
  houses : List HouseEntry
  planets : List PlanetEntry
  aspects : List AspectMatch
  rising_sign : String × ℚ
deriving DecidableEq, Repr

structure HTTPError where
  status : Nat
  detail : String
deriving DecidableEq, Repr

/-- The `try` body of the `natal` handler. -/
def natalCore (e : Ephem) (tzdb : TZDB) (p : NatalInput) : Except String NatalResponse :=
  match to_utc_iso tzdb p.date p.time p.timezone with
  | .error msg => .error msg
  | .ok utc =>
    match e.asc with
    | .error msg => .error msg
    | .ok ascLon =>
      match e.mc with
      | .error msg => .error msg
      | .ok mcLon =>
        match housesList e with
        | .error msg => .error msg
        | .ok houses =>
          match natalBodyLons (PLANET_LABELS.map (planetEntry e.swe) ++ nodeEntries e) with
          | .error msg => .error msg
          | .ok body_lons =>
            .ok ⟨p.house_system, utc, angle_to_obj "ASC" ascLon, angle_to_obj "MC" mcLon,
                 houses, PLANET_LABELS.map (planetEntry e.swe) ++ nodeEntries e,
                 findAspects body_lons,
                 ((angle_to_obj "ASC" ascLon).sign, (angle_to_obj "ASC" ascLon).deg)⟩

/-- The `natal` handler: any exception inside the body becomes
`HTTPException(status_code=500, detail=f"Calculation error: {e}")`. -/
def natal (e : Ephem) (tzdb : TZDB) (p : NatalInput) : Except HTTPError NatalResponse :=
  match natalCore e tzdb p with
  | .ok r => .ok r
  | .error msg => .error ⟨500, "Calculation error: " ++ msg⟩

/-- The endpoint as FastAPI serves it: request-body validation (a 422
on failure) happens before the handler runs. -/
def serve (e : Ephem) (tzdb : TZDB) (raw : RawNatal) : Except HTTPError NatalResponse :=
  match parseNatalInput raw with
  | .error msg => .error ⟨422, msg⟩
  | .ok p => natal e tzdb p

/-- Modelled from the spec: optional shared-secret header authorization
("when a secret is configured in the process environment, requests must
present a matching value or are rejected as unauthorized; when no secret
is configured, all requests are accepted").  No such check exists in
src/app.py; this definition follows the spec's words. -/
def authorized (secret header : Option String) : Bool :=
  match secret with
  | none => true
  | some s => header == some s

/-- Modelled from the spec: the endpoint behind the authorization check,
which runs before any computation. -/
def authServe (secret header : Option String) (e : Ephem) (tzdb : TZDB) (raw : RawNatal) :
    Except HTTPError NatalResponse :=
  if authorized secret header then serve e tzdb raw
  else .error ⟨401, "Unauthorized"⟩

/-! ### Basic facts about `pymod`, `round2`, and the sign index -/

theorem pymod_nonneg (x : ℚ) : 0 ≤ pymod x 360 := by
  unfold pymod
  have h : ((⌊x / 360⌋ : ℤ) : ℚ) ≤ x / 360 := Int.floor_le _
  have h2 : 360 * ((⌊x / 360⌋ : ℤ) : ℚ) ≤ 360 * (x / 360) := by
    exact mul_le_mul_of_nonneg_left h (by norm_num)
  have h3 : 360 * (x / 360) = x := by ring
  linarith

theorem pymod_lt (x : ℚ) : pymod x 360 < 360 := by
  unfold pymod
  have h : x / 360 < ((⌊x / 360⌋ : ℤ) : ℚ) + 1 := Int.lt_floor_add_one _
  have h2 : 360 * (x / 360) < 360 * (((⌊x / 360⌋ : ℤ) : ℚ) + 1) := by
    exact mul_lt_mul_of_pos_left h (by norm_num)
  have h3 : 360 * (x / 360) = x := by ring
  linarith

theorem sign_index_lt (x : ℚ) (_hx0 : 0 ≤ x) (hx : x < 360) : (⌊x / 30⌋).toNat < 12 := by
  have h1 : ⌊x / 30⌋ < 12 := by
    rw [Int.floor_lt]
    push_cast
    linarith
  omega

theorem round2_le_int (x : ℚ) (n : ℤ) (h : x ≤ (n : ℚ)) : round2 x ≤ (n : ℚ) := by
  unfold round2
  rw [div_le_iff₀ (by norm_num : (0 : ℚ) < 100)]
  have h1 : round (x * 100) ≤ n * 100 := by
    rw [round_eq]
    have h2 : x * 100 + 1 / 2 ≤ (n : ℚ) * 100 + 1 / 2 := by nlinarith
    calc ⌊x * 100 + 1 / 2⌋ ≤ ⌊(n : ℚ) * 100 + 1 / 2⌋ := Int.floor_mono h2
    _ = n * 100 := by
        rw [show (n : ℚ) * 100 + 1 / 2 = 1 / 2 + ((n * 100 : ℤ) : ℚ) by push_cast; ring]
        rw [Int.floor_add_int]
        norm_num
  exact_mod_cast h1

theorem int_le_round2 (x : ℚ) (n : ℤ) (h : (n : ℚ) ≤ x) : (n : ℚ) ≤ round2 x := by
  unfold round2
  rw [le_div_iff₀ (by norm_num : (0 : ℚ) < 100)]
  have h1 : n * 100 ≤ round (x * 100) := by
    rw [round_eq]
    have h2 : (n : ℚ) * 100 + 1 / 2 ≤ x * 100 + 1 / 2 := by nlinarith
    calc (n * 100 : ℤ) = ⌊(n : ℚ) * 100 + 1 / 2⌋ := by
          rw [show (n : ℚ) * 100 + 1 / 2 = 1 / 2 + ((n * 100 : ℤ) : ℚ) by push_cast; ring]
          rw [Int.floor_add_int]
          norm_num
    _ ≤ ⌊x * 100 + 1 / 2⌋ := Int.floor_mono h2
  exact_mod_cast h1

/-- C2: `lon_to_sign_deg` first normalizes into `[0, 360)` by modulo,
returns the sign at index `floor(longitude / 30)` in the canonical
Aries..Pisces order with degree-in-sign `longitude - 30 * index` rounded
to 2 decimals; the index never reaches a 13th sign, and on the spec's
edge inputs `signOf(0.0) = ("Aries", 0.00)` and
`signOf(359.999) = ("Pisces", 30.0)`. -/
theorem lon_to_sign_deg_spec :
    (∀ L : ℚ,
      0 ≤ pymod L 360 ∧ pymod L 360 < 360 ∧
      (⌊pymod L 360 / 30⌋).toNat < 12 ∧
      lon_to_sign_deg L =
        (SIGNS.getD (⌊pymod L 360 / 30⌋).toNat "",
         round2 (pymod L 360 - ((⌊pymod L 360 / 30⌋).toNat : ℚ) * 30))) ∧
    lon_to_sign_deg 0 = ("Aries", 0) ∧
    lon_to_sign_deg (359999 / 1000) = ("Pisces", 30) := by
  refine ⟨fun L => ⟨pymod_nonneg L, pymod_lt L, ?_, rfl⟩, ?_, ?_⟩
  · exact sign_index_lt _ (pymod_nonneg L) (pymod_lt L)
  · norm_num [lon_to_sign_deg, pymod, round2, SIGNS, round_eq]
  · norm_num [lon_to_sign_deg, pymod, round2, SIGNS, round_eq,
      (by decide : (11 : ℤ).toNat = 11)]

/-- C7: `lon_to_sign_deg` is total over ℚ: for every input, also
negative or at least 360, the modulo normalization lands in `[0, 360)`,
the sign-table index stays inside `0..11`, and the returned sign is one
of the twelve table entries. -/
theorem lon_to_sign_deg_total (L : ℚ) :
    0 ≤ pymod L 360 ∧ pymod L 360 < 360 ∧
    (⌊pymod L 360 / 30⌋).toNat < SIGNS.length ∧
    (lon_to_sign_deg L).1 ∈ SIGNS := by
  have h0 := pymod_nonneg L
  have h1 := pymod_lt L
  have h2 := sign_index_lt _ h0 h1
  refine ⟨h0, h1, by simpa [SIGNS] using h2, ?_⟩
  show SIGNS.getD (⌊pymod L 360 / 30⌋).toNat "" ∈ SIGNS
  set i := (⌊pymod L 360 / 30⌋).toNat with hi
  interval_cases i <;> simp [SIGNS]

/-! ### Structure of the aspect scan -/

theorem aspectLoop_eq_filterMap (bl : String → Option ℚ) (l : List String) :
    aspectLoop bl l = (canonPairs l).filterMap (fun pr => pairAspect bl pr.1 pr.2) := by
  induction l with
  | nil => rfl
  | cons a rest ih =>
    simp only [aspectLoop, canonPairs, List.filterMap_append, List.filterMap_map, ih]
    rfl

theorem pairAspect_names {bl : String → Option ℚ} {na nb : String} {m : AspectMatch}
    (h : pairAspect bl na nb = some m) : m.a = na ∧ m.b = nb := by
  unfold pairAspect at h
  split at h
  · cases h
    exact ⟨rfl, rfl⟩
  · cases h

theorem mem_canonPairs {p : String × String} :
    ∀ {l : List String}, p ∈ canonPairs l → p.1 ∈ l ∧ p.2 ∈ l := by
  intro l
  induction l with
  | nil => simp [canonPairs]
  | cons a rest ih =>
    intro hp
    simp only [canonPairs, List.mem_append, List.mem_map] at hp
    rcases hp with ⟨b, hb, hpe⟩ | hp
    · subst hpe
      exact ⟨by simp, by simp [hb]⟩
    · have h2 := ih hp
      exact ⟨List.mem_cons_of_mem _ h2.1, List.mem_cons_of_mem _ h2.2⟩

theorem canonPairs_nodup : ∀ {l : List String}, l.Nodup → (canonPairs l).Nodup := by
  intro l
  induction l with
  | nil => intro _; simp [canonPairs]
  | cons a rest ih =>
    intro h
    rw [List.nodup_cons] at h
    rw [canonPairs, List.nodup_append]
    refine ⟨?_, ih h.2, ?_⟩
    · refine h.2.map ?_
      intro b c hbc
      exact congrArg Prod.snd hbc
    · intro p hp hp2
      obtain ⟨b, _, hpe⟩ := List.mem_map.1 hp
      subst hpe
      exact h.1 (mem_canonPairs hp2).1

theorem canonPairs_ne :
    ∀ {l : List String}, l.Nodup → ∀ p ∈ canonPairs l, p.1 ≠ p.2 := by
  intro l
  induction l with
  | nil => intro _ p hp; simp [canonPairs] at hp
  | cons a rest ih =>
    intro h p hp
    rw [List.nodup_cons] at h
    simp only [canonPairs, List.mem_append, List.mem_map] at hp
    rcases hp with ⟨b, hb, hpe⟩ | hp
    · subst hpe
      show a ≠ b
      intro hab
      subst hab
      exact h.1 hb
    · exact ih h.2 p hp

theorem canonPairs_asym :
    ∀ {l : List String}, l.Nodup → ∀ a b : String,
      (a, b) ∈ canonPairs l → (b, a) ∉ canonPairs l := by
  intro l
  induction l with
  | nil => intro _ a b hab; simp [canonPairs] at hab
  | cons x rest ih =>
    intro h a b hab hba
    rw [List.nodup_cons] at h
    rw [canonPairs, List.mem_append] at hab hba
    rcases hab with hab | hab
    · obtain ⟨c, hc, hce⟩ := List.mem_map.1 hab
      have hxa : x = a := congrArg Prod.fst hce
      have hcb : c = b := congrArg Prod.snd hce
      rcases hba with hba | hba
      · obtain ⟨c2, hc2, hce2⟩ := List.mem_map.1 hba
        have hxb : x = b := congrArg Prod.fst hce2
        exact h.1 (by rw [hxb, ← hcb]; exact hc)
      · exact h.1 (by rw [hxa]; exact (mem_canonPairs hba).2)
    · rcases hba with hba | hba
      · obtain ⟨c2, hc2, hce2⟩ := List.mem_map.1 hba
        have hxb : x = b := congrArg Prod.fst hce2
        exact h.1 (by rw [hxb]; exact (mem_canonPairs hab).2)
      · exact ih h.2 a b hab hba

theorem canonPairs_total :
    ∀ {l : List String}, ∀ a b : String, a ∈ l → b ∈ l → a ≠ b →
      (a, b) ∈ canonPairs l ∨ (b, a) ∈ canonPairs l := by
  intro l
  induction l with
  | nil => intro a b ha; simp at ha
  | cons x rest ih =>
    intro a b ha hb hab
    by_cases hax : a = x
    · subst hax
      have hbr : b ∈ rest := by
        rcases List.mem_cons.1 hb with h1 | h1
        · exact absurd h1.symm hab
        · exact h1
      left
      rw [canonPairs, List.mem_append]
      exact Or.inl (List.mem_map.2 ⟨b, hbr, rfl⟩)
    · by_cases hbx : b = x
      · subst hbx
        have har : a ∈ rest := (List.mem_cons.1 ha).resolve_left hax
        right
        rw [canonPairs, List.mem_append]
        exact Or.inl (List.mem_map.2 ⟨a, har, rfl⟩)
      · have har : a ∈ rest := (List.mem_cons.1 ha).resolve_left hax
        have hbr : b ∈ rest := (List.mem_cons.1 hb).resolve_left hbx
        rcases ih a b har hbr hab with h1 | h1
        · left
          rw [canonPairs, List.mem_append]
          exact Or.inr h1
        · right
          rw [canonPairs, List.mem_append]
          exact Or.inr h1

theorem filterMap_sublist_self {α : Type} (l : List α) (g : α → Option α)
    (hg : ∀ x ∈ l, g x = none ∨ g x = some x) : (l.filterMap g).Sublist l := by
  induction l with
  | nil => simp
  | cons a rest ih =>
    have hrest := ih fun x hx => hg x (List.mem_cons_of_mem _ hx)
    rcases hg a (by simp) with h | h
    · rw [List.filterMap_cons, h]
      exact hrest.cons _
    · rw [List.filterMap_cons, h]
      exact hrest.cons₂ _

theorem pairDist_nonneg (bl : String → Option ℚ) (na nb : String) :
    0 ≤ pairDist bl na nb := by
  unfold pairDist
  have ha0 := pymod_nonneg ((bl na).getD 0)
  have ha1 := pymod_lt ((bl na).getD 0)
  have hb0 := pymod_nonneg ((bl nb).getD 0)
  have hb1 := pymod_lt ((bl nb).getD 0)
  refine le_min (abs_nonneg _) ?_
  have h : |pymod ((bl na).getD 0) 360 - pymod ((bl nb).getD 0) 360| < 360 :=
    abs_sub_lt_iff.2 ⟨by linarith, by linarith⟩
  linarith

theorem pairDist_le_180 (bl : String → Option ℚ) (na nb : String) :
    pairDist bl na nb ≤ 180 := by
  unfold pairDist
  rcases le_total |pymod ((bl na).getD 0) 360 - pymod ((bl nb).getD 0) 360| 180 with h | h
  · exact le_trans (min_le_left _ _) h
  · exact le_trans (min_le_right _ _) (by linarith)

theorem mem_findAspects {bl : String → Option ℚ} {m : AspectMatch} :
    m ∈ findAspects bl ↔
      ∃ pr, pr ∈ canonPairs (namesForAspects bl) ∧ pairAspect bl pr.1 pr.2 = some m := by
  rw [findAspects, aspectLoop_eq_filterMap, List.mem_filterMap]

theorem pairAspect_eq_some {bl : String → Option ℚ} {na nb : String} {m : AspectMatch}
    (h : pairAspect bl na nb = some m) :
    ∃ orbMax : ℚ,
      ASPECTS.find? (fun t => decide (|pairDist bl na nb - t.2.1| ≤ t.2.2)) =
        some (m.type, m.exact, orbMax) ∧
      m = ⟨na, nb, m.type, round2 |pairDist bl na nb - m.exact|,
           round2 (pairDist bl na nb), m.exact⟩ := by
  unfold pairAspect at h
  split at h
  next name ex orbMax hf =>
    cases h
    exact ⟨orbMax, hf, rfl⟩
  next => cases h

theorem pairAspect_eq_none {bl : String → Option ℚ} {na nb : String}
    (h : ASPECTS.find? (fun t => decide (|pairDist bl na nb - t.2.1| ≤ t.2.2)) = none) :
    pairAspect bl na nb = none := by
  unfold pairAspect
  rw [h]

theorem orbMax_cases {entry : String × ℚ × ℚ} (h : entry ∈ ASPECTS) :
    entry.2.2 = 8 ∨ entry.2.2 = 7 ∨ entry.2.2 = 6 ∨ entry.2.2 = 5 := by
  simp only [ASPECTS, List.mem_cons, List.not_mem_nil, or_false] at h
  rcases h with rfl | rfl | rfl | rfl | rfl <;> norm_num

theorem round2_le_orbMax {x q : ℚ} (hq : q = 8 ∨ q = 7 ∨ q = 6 ∨ q = 5) (h : x ≤ q) :
    round2 x ≤ q := by
  rcases hq with rfl | rfl | rfl | rfl
  · simpa using round2_le_int x 8 (by exact_mod_cast h)
  · simpa using round2_le_int x 7 (by exact_mod_cast h)
  · simpa using round2_le_int x 6 (by exact_mod_cast h)
  · simpa using round2_le_int x 5 (by exact_mod_cast h)

theorem namesForAspects_nodup (bl : String → Option ℚ) : (namesForAspects bl).Nodup :=
  List.Nodup.filter _ (by decide : NAMES_FOR_ASPECTS.Nodup)

/-- C1: for every mapping from body names to longitudes, the aspect
detector visits each unordered pair of named bodies exactly once, in
first-seen order of the canonical name list, with no self-pairs and no
repeated pair; the pair distance `min(|a-b|, 360-|a-b|)` always lies in
`[0, 180]`; the fixed table conjunction 0/8, opposition 180/8, trine
120/7, square 90/6, sextile 60/5 is scanned in that priority order and
the first entry within orb is recorded (orb and dist rounded to 2
decimals, recorded orb never above the entry's maximum), after which the
pair's scan stops; a pair matching no entry yields no result and no
error. -/
theorem aspect_detector_spec (bl : String → Option ℚ) :
    ((findAspects bl).map (fun m => (m.a, m.b))).Sublist (canonPairs (namesForAspects bl)) ∧
    ((findAspects bl).map (fun m => (m.a, m.b))).Nodup ∧
    (∀ p ∈ canonPairs (namesForAspects bl), p.1 ≠ p.2) ∧
    (∀ a b : String, a ∈ namesForAspects bl → b ∈ namesForAspects bl → a ≠ b →
      ((a, b) ∈ canonPairs (namesForAspects bl) ↔ (b, a) ∉ canonPairs (namesForAspects bl))) ∧
    (∀ na nb : String, 0 ≤ pairDist bl na nb ∧ pairDist bl na nb ≤ 180) ∧
    ASPECTS = [("conjunction", 0, 8), ("opposition", 180, 8), ("trine", 120, 7),
               ("square", 90, 6), ("sextile", 60, 5)] ∧
    (∀ m ∈ findAspects bl, ∃ orbMax : ℚ,
      ASPECTS.find? (fun t => decide (|pairDist bl m.a m.b - t.2.1| ≤ t.2.2)) =
        some (m.type, m.exact, orbMax) ∧
      (m.type, m.exact, orbMax) ∈ ASPECTS ∧
      m.orb = round2 |pairDist bl m.a m.b - m.exact| ∧
      m.dist = round2 (pairDist bl m.a m.b) ∧
      0 ≤ m.dist ∧ m.dist ≤ 180 ∧ m.orb ≤ orbMax) ∧
    (∀ pr ∈ canonPairs (namesForAspects bl),
      ASPECTS.find? (fun t => decide (|pairDist bl pr.1 pr.2 - t.2.1| ≤ t.2.2)) = none →
      ∀ m ∈ findAspects bl, (m.a, m.b) ≠ pr) := by
  have hnd := namesForAspects_nodup bl
  have hkey : (findAspects bl).map (fun m => (m.a, m.b)) =
      (canonPairs (namesForAspects bl)).filterMap
        (fun pr => (pairAspect bl pr.1 pr.2).map (fun m => (m.a, m.b))) := by
    rw [findAspects, aspectLoop_eq_filterMap, List.map_filterMap]
  have hsub : ((findAspects bl).map (fun m => (m.a, m.b))).Sublist
      (canonPairs (namesForAspects bl)) := by
    rw [hkey]
    apply filterMap_sublist_self
    intro pr _
    cases hpa : pairAspect bl pr.1 pr.2 with
    | none => exact Or.inl rfl
    | some m =>
      right
      obtain ⟨h1, h2⟩ := pairAspect_names hpa
      simp [Option.map, h1, h2]
  refine ⟨hsub, hsub.nodup (canonPairs_nodup hnd), canonPairs_ne hnd, ?_, ?_, rfl, ?_, ?_⟩
  · intro a b ha hb hab
    constructor
    · exact canonPairs_asym hnd a b
    · intro hn
      exact (canonPairs_total a b ha hb hab).resolve_right hn
  · intro na nb
    exact ⟨pairDist_nonneg bl na nb, pairDist_le_180 bl na nb⟩
  · intro m hm
    obtain ⟨pr, _, hpa⟩ := mem_findAspects.1 hm
    obtain ⟨hma, hmb⟩ := pairAspect_names hpa
    obtain ⟨orbMax, hf, hshape⟩ := pairAspect_eq_some hpa
    rw [← hma, ← hmb] at hf
    have hmem : (m.type, m.exact, orbMax) ∈ ASPECTS := List.mem_of_find?_eq_some hf
    have hpred := List.find?_some hf
    have hle : |pairDist bl m.a m.b - m.exact| ≤ orbMax := of_decide_eq_true hpred
    have horb : m.orb = round2 |pairDist bl m.a m.b - m.exact| := by
      conv_lhs => rw [hshape]
      rw [hma, hmb]
    have hdist : m.dist = round2 (pairDist bl m.a m.b) := by
      conv_lhs => rw [hshape]
      rw [hma, hmb]
    refine ⟨orbMax, hf, hmem, horb, hdist, ?_, ?_, ?_⟩
    · rw [hdist]
      simpa using int_le_round2 (pairDist bl m.a m.b) 0
        (by exact_mod_cast pairDist_nonneg bl m.a m.b)
    · rw [hdist]
      simpa using round2_le_int (pairDist bl m.a m.b) 180
        (by exact_mod_cast pairDist_le_180 bl m.a m.b)
    · rw [horb]
      exact round2_le_orbMax (orbMax_cases hmem) hle
  · intro pr _ hnone m hm hprm
    obtain ⟨pr', _, hpa⟩ := mem_findAspects.1 hm
    obtain ⟨hma, hmb⟩ := pairAspect_names hpa
    have hpr' : pr' = pr := by
      rw [← hprm, hma, hmb]
    rw [hpr'] at hpa
    rw [pairAspect_eq_none hnone] at hpa
    cases hpa

/-! ### Concrete evaluation of the aspect scan (the spec's test vectors) -/

theorem pymod_eq_self {x : ℚ} (h0 : 0 ≤ x) (h1 : x < 360) : pymod x 360 = x := by
  unfold pymod
  have hz : ⌊x / 360⌋ = 0 := by
    rw [Int.floor_eq_zero_iff, Set.mem_Ico]
    constructor
    · positivity
    · rw [div_lt_one (by norm_num : (0 : ℚ) < 360)]
      linarith
  rw [hz]
  ring

theorem dec_abs_le_false_ge {d e o : ℚ} (hde : e ≤ d) (h : o < d - e) :
    decide (|d - e| ≤ o) = false := by
  apply decide_eq_false
  rw [abs_of_nonneg (by linarith : (0 : ℚ) ≤ d - e)]
  linarith

theorem dec_abs_le_false_le {d e o : ℚ} (hde : d ≤ e) (h : o < e - d) :
    decide (|d - e| ≤ o) = false := by
  apply decide_eq_false
  rw [abs_sub_comm, abs_of_nonneg (by linarith : (0 : ℚ) ≤ e - d)]
  linarith

theorem dec_abs_le_true_ge {d e o : ℚ} (hde : e ≤ d) (h : d - e ≤ o) :
    decide (|d - e| ≤ o) = true := by
  apply decide_eq_true
  rw [abs_of_nonneg (by linarith : (0 : ℚ) ≤ d - e)]
  exact h

/-- Test-vector map: Sun at 10°, Moon at 190°. -/
def blOpp : String → Option ℚ := fun n =>
  if n = "Sun" then some 10 else if n = "Moon" then some 190 else none

/-- Test-vector map: Sun at 0°, Moon at 61°. -/
def blSex : String → Option ℚ := fun n =>
  if n = "Sun" then some 0 else if n = "Moon" then some 61 else none

/-- Test-vector map: Sun at 0°, Moon at 75°. -/
def blNone : String → Option ℚ := fun n =>
  if n = "Sun" then some 0 else if n = "Moon" then some 75 else none

def oppositionSunMoon : AspectMatch := ⟨"Sun", "Moon", "opposition", 0, 180, 180⟩

theorem pdOpp : pairDist blOpp "Sun" "Moon" = 180 := by
  have e1 : blOpp "Sun" = some 10 := rfl
  have e2 : blOpp "Moon" = some 190 := rfl
  unfold pairDist
  rw [e1, e2]
  simp only [Option.getD_some]
  rw [pymod_eq_self (by norm_num) (by norm_num), pymod_eq_self (by norm_num) (by norm_num)]
  rw [show |(10 : ℚ) - 190| = 180 by
    rw [abs_sub_comm, abs_of_nonneg (by norm_num : (0 : ℚ) ≤ 190 - 10)]; norm_num]
  norm_num

theorem pdSex : pairDist blSex "Sun" "Moon" = 61 := by
  have e1 : blSex "Sun" = some 0 := rfl
  have e2 : blSex "Moon" = some 61 := rfl
  unfold pairDist
  rw [e1, e2]
  simp only [Option.getD_some]
  rw [pymod_eq_self (by norm_num) (by norm_num), pymod_eq_self (by norm_num) (by norm_num)]
  rw [show |(0 : ℚ) - 61| = 61 by
    rw [abs_sub_comm, abs_of_nonneg (by norm_num : (0 : ℚ) ≤ 61 - 0)]; norm_num]
  rw [show (360 : ℚ) - 61 = 299 by norm_num]
  rw [min_eq_left (by norm_num : (61 : ℚ) ≤ 299)]

theorem pdNone : pairDist blNone "Sun" "Moon" = 75 := by
  have e1 : blNone "Sun" = some 0 := rfl
  have e2 : blNone "Moon" = some 75 := rfl
  unfold pairDist
  rw [e1, e2]
  simp only [Option.getD_some]
  rw [pymod_eq_self (by norm_num) (by norm_num), pymod_eq_self (by norm_num) (by norm_num)]
  rw [show |(0 : ℚ) - 75| = 75 by
    rw [abs_sub_comm, abs_of_nonneg (by norm_num : (0 : ℚ) ≤ 75 - 0)]; norm_num]
  rw [show (360 : ℚ) - 75 = 285 by norm_num]
  rw [min_eq_left (by norm_num : (75 : ℚ) ≤ 285)]

theorem findOpp :
    ASPECTS.find? (fun t => decide (|(180 : ℚ) - t.2.1| ≤ t.2.2)) =
      some ("opposition", 180, 8) := by
  simp only [ASPECTS, List.find?_cons]
  rw [dec_abs_le_false_ge (by norm_num : (0 : ℚ) ≤ 180) (by norm_num : (8 : ℚ) < 180 - 0)]
  rw [dec_abs_le_true_ge (by norm_num : (180 : ℚ) ≤ 180) (by norm_num : (180 : ℚ) - 180 ≤ 8)]

theorem findSex :
    ASPECTS.find? (fun t => decide (|(61 : ℚ) - t.2.1| ≤ t.2.2)) =
      some ("sextile", 60, 5) := by
  simp only [ASPECTS, List.find?_cons]
  rw [dec_abs_le_false_ge (by norm_num : (0 : ℚ) ≤ 61) (by norm_num : (8 : ℚ) < 61 - 0)]
  rw [dec_abs_le_false_le (by norm_num : (61 : ℚ) ≤ 180) (by norm_num : (8 : ℚ) < 180 - 61)]
  rw [dec_abs_le_false_le (by norm_num : (61 : ℚ) ≤ 120) (by norm_num : (7 : ℚ) < 120 - 61)]
  rw [dec_abs_le_false_le (by norm_num : (61 : ℚ) ≤ 90) (by norm_num : (6 : ℚ) < 90 - 61)]
  rw [dec_abs_le_true_ge (by norm_num : (60 : ℚ) ≤ 61) (by norm_num : (61 : ℚ) - 60 ≤ 5)]

theorem findNone :
    ASPECTS.find? (fun t => decide (|(75 : ℚ) - t.2.1| ≤ t.2.2)) = none := by
  simp only [ASPECTS, List.find?_cons]
  rw [dec_abs_le_false_ge (by norm_num : (0 : ℚ) ≤ 75) (by norm_num : (8 : ℚ) < 75 - 0)]
  rw [dec_abs_le_false_le (by norm_num : (75 : ℚ) ≤ 180) (by norm_num : (8 : ℚ) < 180 - 75)]
  rw [dec_abs_le_false_le (by norm_num : (75 : ℚ) ≤ 120) (by norm_num : (7 : ℚ) < 120 - 75)]
  rw [dec_abs_le_false_le (by norm_num : (75 : ℚ) ≤ 90) (by norm_num : (6 : ℚ) < 90 - 75)]
  rw [dec_abs_le_false_ge (by norm_num : (60 : ℚ) ≤ 75) (by norm_num : (5 : ℚ) < 75 - 60)]
  rfl

theorem paOpp : pairAspect blOpp "Sun" "Moon" = some oppositionSunMoon := by
  unfold pairAspect
  simp only [pdOpp, findOpp]
  norm_num [oppositionSunMoon, round2, round_eq]

theorem paSex : pairAspect blSex "Sun" "Moon" =
    some ⟨"Sun", "Moon", "sextile", 1, 61, 60⟩ := by
  unfold pairAspect
  simp only [pdSex, findSex]
  rw [show |(61 : ℚ) - 60| = 1 by
    rw [abs_of_nonneg (by norm_num : (0 : ℚ) ≤ 61 - 60)]; norm_num]
  norm_num [round2, round_eq]

theorem paNone : pairAspect blNone "Sun" "Moon" = none := by
  unfold pairAspect
  simp only [pdNone, findNone]

theorem faOpp : findAspects blOpp = [oppositionSunMoon] := by
  rw [findAspects, (by decide : namesForAspects blOpp = ["Sun", "Moon"])]
  simp [aspectLoop, paOpp]

theorem faSex : findAspects blSex = [⟨"Sun", "Moon", "sextile", 1, 61, 60⟩] := by
  rw [findAspects, (by decide : namesForAspects blSex = ["Sun", "Moon"])]
  simp [aspectLoop, paSex]

theorem faNone : findAspects blNone = [] := by
  rw [findAspects, (by decide : namesForAspects blNone = ["Sun", "Moon"])]
  simp [aspectLoop, paNone]

/-- C8: on the spec's test vectors, bodies at 10° and 190° yield exactly
one match, an opposition with dist 180.00 and orb 0.00; bodies at 0° and
61° yield a sextile with dist 61.00 and orb 1.00 and nothing else;
bodies at 0° and 75° yield no aspect. -/
theorem findAspects_test_vectors :
    findAspects blOpp = [⟨"Sun", "Moon", "opposition", 0, 180, 180⟩] ∧
    findAspects blSex = [⟨"Sun", "Moon", "sextile", 1, 61, 60⟩] ∧
    findAspects blNone = [] :=
  ⟨faOpp, faSex, faNone⟩

/-- Witness for C1's theorem at the 10°/190° map: the recorded
opposition is among the detected aspects and its orb respects the
table's maximum. -/
theorem aspect_detector_spec_witness :
    ((findAspects blOpp).map (fun m => (m.a, m.b))).Sublist
      (canonPairs (namesForAspects blOpp)) ∧
    oppositionSunMoon ∈ findAspects blOpp ∧
    oppositionSunMoon.orb ≤ 8 := by
  have hmem : oppositionSunMoon ∈ findAspects blOpp := by
    rw [faOpp]
    exact List.mem_singleton.2 rfl
  have big := aspect_detector_spec blOpp
  obtain ⟨orbMax, hf, _, _, _, _, _, hle⟩ := big.2.2.2.2.2.2.1 oppositionSunMoon hmem
  have hf2 : ASPECTS.find?
      (fun t => decide (|pairDist blOpp oppositionSunMoon.a oppositionSunMoon.b - t.2.1|
        ≤ t.2.2)) = some ("opposition", 180, 8) := by
    show ASPECTS.find? (fun t => decide (|pairDist blOpp "Sun" "Moon" - t.2.1| ≤ t.2.2)) = _
    simp only [pdOpp, findOpp]
  have h8 : orbMax = 8 := by
    have h := hf.symm.trans hf2
    injection h with h'
    have h2 := congrArg (fun p => p.2.2) h'
    simpa using h2
  exact ⟨big.1, hmem, h8 ▸ hle⟩

/-! ### Structure of the assembled chart -/

theorem planetEntry_name (o : SweOracle) (label : String) :
    (planetEntry o label).name = label := by
  unfold planetEntry
  split <;> rfl

theorem nodeEntries_isOk {e : Ephem} {q : PlanetEntry} (hq : q ∈ nodeEntries e) :
    q.isOk = true := by
  unfold nodeEntries at hq
  split at hq
  · simp at hq
  · rcases List.mem_cons.1 hq with rfl | hq2
    · rfl
    · rcases List.mem_cons.1 hq2 with rfl | hq3
      · rfl
      · simp at hq3

theorem foldl_bodyLons_isSome :
    ∀ (planets : List PlanetEntry) (acc : String → Option ℚ) (n : String),
      ((planets.foldl bodyLonsStep acc) n).isSome = true →
      (acc n).isSome = true ∨ ∃ q ∈ planets, q.isOk = true ∧ q.name = n := by
  intro planets
  induction planets with
  | nil =>
    intro acc n h
    exact Or.inl h
  | cons p rest ih =>
    intro acc n h
    rw [List.foldl_cons] at h
    rcases ih (bodyLonsStep acc p) n h with h3 | h3
    · rcases p with ⟨pn, ps, pd, plon, plat, pspd⟩ | ⟨pn, pe⟩
      · have h4 : (if (n == pn) = true then some plon else acc n).isSome = true := h3
        by_cases hn : (n == pn) = true
        · refine Or.inr ⟨PlanetEntry.ok pn ps pd plon plat pspd, List.mem_cons_self _ _,
            rfl, ?_⟩
          show pn = n
          exact (beq_iff_eq.1 hn).symm
        · rw [if_neg hn] at h4
          exact Or.inl h4
      · have h4 : (acc n).isSome = true := h3
        exact Or.inl h4
    · obtain ⟨q, hq, hrest⟩ := h3
      exact Or.inr ⟨q, List.mem_cons_of_mem _ hq, hrest⟩

theorem bodyLons_isSome {planets : List PlanetEntry} {n : String}
    (h : ((bodyLons planets) n).isSome = true) :
    ∃ q ∈ planets, q.isOk = true ∧ q.name = n := by
  unfold bodyLons at h
  rcases foldl_bodyLons_isSome planets (fun _ => none) n h with h1 | h1
  · simp at h1
  · exact h1

theorem addNodeLon_isSome {planets : List PlanetEntry} {x : String}
    {f f' : String → Option ℚ} (h : addNodeLon planets x f = .ok f')
    (hf : ∀ n, (f n).isSome = true → ∃ q ∈ planets, q.isOk = true ∧ q.name = n) :
    ∀ n, (f' n).isSome = true → ∃ q ∈ planets, q.isOk = true ∧ q.name = n := by
  unfold addNodeLon at h
  split at h
  · split at h
    next a b c lon d e hfind =>
      cases h
      intro n hn
      by_cases hnx : (n == x) = true
      · have hq := List.mem_of_find?_eq_some hfind
        have hpred := List.find?_some hfind
        have hname : a = x := beq_iff_eq.1 hpred
        refine ⟨PlanetEntry.ok a b c lon d e, hq, rfl, ?_⟩
        show a = n
        rw [hname]
        exact (beq_iff_eq.1 hnx).symm
      · have hn2 : (if (n == x) = true then some lon else f n).isSome = true := hn
        rw [if_neg hnx] at hn2
        exact hf n hn2
    all_goals exact Except.noConfusion h
  · cases h
    exact hf

theorem natalBodyLons_isSome {planets : List PlanetEntry} {f : String → Option ℚ}
    (h : natalBodyLons planets = .ok f) :
    ∀ n, (f n).isSome = true → ∃ q ∈ planets, q.isOk = true ∧ q.name = n := by
  unfold natalBodyLons at h
  split at h
  next => exact Except.noConfusion h
  next f1 h1 =>
    exact addNodeLon_isSome h
      (addNodeLon_isSome h1 (fun n hn => bodyLons_isSome hn))

theorem addNodeLon_ok (planets : List PlanetEntry) (x : String) (f : String → Option ℚ)
    (hok : ∀ q, planets.find? (fun p => p.name == x) = some q → q.isOk = true) :
    ∃ f', addNodeLon planets x f = .ok f' := by
  unfold addNodeLon
  split
  next hany =>
    have hsome : (planets.find? (fun p => p.name == x)).isSome = true := by
      rw [List.find?_isSome]
      rw [List.any_eq_true] at hany
      exact hany
    obtain ⟨q, hq⟩ := Option.isSome_iff_exists.1 hsome
    split
    next => exact ⟨_, rfl⟩
    next hno =>
      exfalso
      rcases q with ⟨a, b, c, lon, d, e⟩ | ⟨a, b⟩
      · exact hno a b c lon d e hq
      · have := hok _ hq
        simp [PlanetEntry.isOk] at this
  next => exact ⟨f, rfl⟩

theorem find?_planets_node_ok (e : Ephem) (x : String)
    (hx : ∀ l ∈ PLANET_LABELS, l ≠ x) :
    ∀ q, (PLANET_LABELS.map (planetEntry e.swe) ++ nodeEntries e).find?
        (fun p => p.name == x) = some q → q.isOk = true := by
  intro q hq
  have hmem := List.mem_of_find?_eq_some hq
  have hpred := List.find?_some hq
  rcases List.mem_append.1 hmem with hm | hm
  · obtain ⟨label, hl, hpe⟩ := List.mem_map.1 hm
    exfalso
    have hn : q.name = label := by
      rw [← hpe]
      exact planetEntry_name _ _
    have hqx : q.name = x := beq_iff_eq.1 hpred
    exact hx label hl (by rw [← hn, hqx])
  · exact nodeEntries_isOk hm

theorem natalBodyLons_natal_ok (e : Ephem) :
    ∃ f, natalBodyLons (PLANET_LABELS.map (planetEntry e.swe) ++ nodeEntries e) = .ok f := by
  obtain ⟨f1, h1⟩ := addNodeLon_ok _ "North Node" (bodyLons _)
    (find?_planets_node_ok e "North Node" (by decide))
  obtain ⟨f2, h2⟩ := addNodeLon_ok _ "South Node" f1
    (find?_planets_node_ok e "South Node" (by decide))
  refine ⟨f2, ?_⟩
  unfold natalBodyLons
  rw [h1]
  exact h2

theorem natal_ok_core {e : Ephem} {tzdb : TZDB} {p : NatalInput} {r : NatalResponse}
    (h : natal e tzdb p = .ok r) : natalCore e tzdb p = .ok r := by
  unfold natal at h
  split at h
  next r' heq =>
    cases h
    exact heq
  next => exact Except.noConfusion h

theorem natalCore_ok_shape {e : Ephem} {tzdb : TZDB} {p : NatalInput} {r : NatalResponse}
    (h : natalCore e tzdb p = .ok r) :
    r.planets = PLANET_LABELS.map (planetEntry e.swe) ++ nodeEntries e ∧
    ∃ f, natalBodyLons (PLANET_LABELS.map (planetEntry e.swe) ++ nodeEntries e) = .ok f ∧
      r.aspects = findAspects f ∧
      ∃ hs, housesList e = .ok hs ∧ r.houses = hs := by
  unfold natalCore at h
  split at h
  next => exact Except.noConfusion h
  next utc hutc =>
    split at h
    next => exact Except.noConfusion h
    next ascLon hasc =>
      split at h
      next => exact Except.noConfusion h
      next mcLon hmc =>
        split at h
        next => exact Except.noConfusion h
        next hs hhs =>
          split at h
          next => exact Except.noConfusion h
          next f hf =>
            cases h
            exact ⟨rfl, f, hf, rfl, hs, hhs, rfl⟩

theorem housesListAux_length (cusp : Nat → Except String ℚ) :
    ∀ (l : List Nat) (hs : List HouseEntry),
      housesListAux cusp l = .ok hs → hs.length = l.length := by
  intro l
  induction l with
  | nil =>
    intro hs h
    cases h
    rfl
  | cons i rest ih =>
    intro hs h
    unfold housesListAux at h
    split at h
    next => exact Except.noConfusion h
    next cuspLon hcusp =>
      split at h
      next => exact Except.noConfusion h
      next hs2 hrec =>
        cases h
        simp [ih hs2 hrec]

theorem natal_ok_parts {e : Ephem} {tzdb : TZDB} {p : NatalInput} {r : NatalResponse}
    (h : natal e tzdb p = .ok r) :
    (∃ u, to_utc_iso tzdb p.date p.time p.timezone = .ok u) ∧
    (∃ a, e.asc = .ok a) ∧ (∃ m, e.mc = .ok m) ∧ (∃ hs, housesList e = .ok hs) := by
  have h2 := natal_ok_core h
  unfold natalCore at h2
  split at h2
  next => exact Except.noConfusion h2
  next utc hutc =>
    split at h2
    next => exact Except.noConfusion h2
    next ascLon hasc =>
      split at h2
      next => exact Except.noConfusion h2
      next mcLon hmc =>
        split at h2
        next => exact Except.noConfusion h2
        next hss hhs =>
          exact ⟨⟨utc, hutc⟩, ⟨ascLon, hasc⟩, ⟨mcLon, hmc⟩, ⟨hss, hhs⟩⟩

theorem natal_ok_of_parts {e : Ephem} {tzdb : TZDB} {p : NatalInput}
    {u : DT} {a m : ℚ} {hs : List HouseEntry}
    (hu : to_utc_iso tzdb p.date p.time p.timezone = .ok u)
    (ha : e.asc = .ok a) (hm : e.mc = .ok m) (hh : housesList e = .ok hs) :
    ∃ r, natal e tzdb p = .ok r := by
  obtain ⟨f, hf⟩ := natalBodyLons_natal_ok e
  apply Exists.intro
  unfold natal natalCore
  rw [hu, ha, hm, hh, hf]

theorem housesList_congr {e e' : Ephem} (hc : e.cusp = e'.cusp) :
    housesList e = housesList e' := by
  unfold housesList
  rw [hc]

/-- C6: a failure computing one body's position yields an entry with
only that body's name and an error marker while all other bodies and
the rest of the chart are still produced (whether the request succeeds
never depends on the per-body or node oracles); a node failure is fully
swallowed: both node entries are omitted and the request still
succeeds. -/
theorem per_body_failure_isolated :
    (∀ (e : Ephem) (tzdb : TZDB) (p : NatalInput) (r : NatalResponse),
      natal e tzdb p = .ok r →
      (∀ label msg, label ∈ PLANET_LABELS → swe_calc_lonlat e.swe label = .error msg →
        PlanetEntry.err label ("calc failed: " ++ msg) ∈ r.planets) ∧
      (∀ label lon lat, label ∈ PLANET_LABELS → swe_calc_lonlat e.swe label = .ok (lon, lat) →
        PlanetEntry.ok label (lon_to_sign_deg lon).1 (lon_to_sign_deg lon).2
          (round4 lon) (round4 lat) 0 ∈ r.planets) ∧
      (∀ msg, e.node = .error msg →
        ∀ q ∈ r.planets, q.name ≠ "North Node" ∧ q.name ≠ "South Node")) ∧
    (∀ (e e' : Ephem) (tzdb : TZDB) (p : NatalInput),
      e.asc = e'.asc → e.mc = e'.mc → e.cusp = e'.cusp →
      ((∃ r, natal e tzdb p = .ok r) ↔ ∃ r', natal e' tzdb p = .ok r')) := by
  constructor
  · intro e tzdb p r h
    obtain ⟨hpl, -⟩ := natalCore_ok_shape (natal_ok_core h)
    refine ⟨?_, ?_, ?_⟩
    · intro label msg hl hsw
      rw [hpl]
      apply List.mem_append_left
      have hval : planetEntry e.swe label = .err label ("calc failed: " ++ msg) := by
        unfold planetEntry
        rw [hsw]
      rw [← hval]
      exact List.mem_map_of_mem _ hl
    · intro label lon lat hl hsw
      rw [hpl]
      apply List.mem_append_left
      have hval : planetEntry e.swe label =
          .ok label (lon_to_sign_deg lon).1 (lon_to_sign_deg lon).2
            (round4 lon) (round4 lat) 0 := by
        unfold planetEntry
        rw [hsw]
      rw [← hval]
      exact List.mem_map_of_mem _ hl
    · intro msg hnode q hq
      rw [hpl] at hq
      rcases List.mem_append.1 hq with hm | hm
      · obtain ⟨label, hl, hpe⟩ := List.mem_map.1 hm
        have hn : q.name = label := by
          rw [← hpe]
          exact planetEntry_name _ _
        rw [hn]
        exact ⟨(by decide : ∀ l ∈ PLANET_LABELS, l ≠ "North Node") label hl,
               (by decide : ∀ l ∈ PLANET_LABELS, l ≠ "South Node") label hl⟩
      · rw [show nodeEntries e = [] by unfold nodeEntries; rw [hnode]] at hm
        simp at hm
  · intro e e' tzdb p ha hm hc
    constructor
    · rintro ⟨r, hr⟩
      obtain ⟨⟨u, hu⟩, ⟨a, ha2⟩, ⟨mv, hm2⟩, ⟨hl, hh2⟩⟩ := natal_ok_parts hr
      exact natal_ok_of_parts hu (ha ▸ ha2) (hm ▸ hm2) (housesList_congr hc ▸ hh2)
    · rintro ⟨r, hr⟩
      obtain ⟨⟨u, hu⟩, ⟨a, ha2⟩, ⟨mv, hm2⟩, ⟨hl, hh2⟩⟩ := natal_ok_parts hr
      exact natal_ok_of_parts hu (ha.symm ▸ ha2) (hm.symm ▸ hm2)
        ((housesList_congr hc).symm ▸ hh2)

/-- All three `swe.calc_ut` attempts raise, for every body. -/
def sweFail : SweOracle := ⟨fun _ => .exn "boom", fun _ => .exn "boom", fun _ => .exn "boom"⟩

/-- An ephemeris in which every body and the node fail while angles and
cusps succeed. -/
def ephFail : Ephem := ⟨sweFail, .error "boom", .ok 0, .ok 0, fun _ => .ok 0⟩

/-- A one-zone tz database: "UTC" with the identity conversion. -/
def tz0 : TZDB := fun n => if n = "UTC" then some (fun t => t) else none

def inp0 : NatalInput := ⟨"1990-06-12", "14:23", "UTC", 0, 0, "Placidus"⟩

def fallbackResponse : NatalResponse :=
  ⟨"", (0, 0, 0, 0, 0), ⟨"", "", 0, 0⟩, ⟨"", "", 0, 0⟩, [], [], [], ("", 0)⟩

def resp0F : NatalResponse :=
  match natal ephFail tz0 inp0 with
  | .ok r => r
  | .error _ => fallbackResponse

/-- Witness for C6's theorem: with every body raising and the node
raising, the request still succeeds and Mars's entry is the bare
name-plus-error dict. -/
theorem per_body_failure_isolated_witness :
    natal ephFail tz0 inp0 = .ok resp0F ∧
    PlanetEntry.err "Mars" "calc failed: boom" ∈ resp0F.planets := by
  have h0 : natal ephFail tz0 inp0 = .ok resp0F := rfl
  refine ⟨h0, ?_⟩
  have h1 := (per_body_failure_isolated.1 ephFail tz0 inp0 resp0F h0).1
    "Mars" "boom" (by decide) rfl
  exact h1

/-- C10: every aspect names only bodies whose positions computed
successfully — a body entry that carries an error marker never appears
in any recorded aspect pair. -/
theorem aspects_only_over_computed_bodies
    (e : Ephem) (tzdb : TZDB) (p : NatalInput) (r : NatalResponse)
    (h : natal e tzdb p = .ok r) :
    ∀ m ∈ r.aspects,
      (∃ q ∈ r.planets, q.isOk = true ∧ q.name = m.a) ∧
      (∃ q ∈ r.planets, q.isOk = true ∧ q.name = m.b) := by
  obtain ⟨hpl, f, hf, hasp, -⟩ := natalCore_ok_shape (natal_ok_core h)
  intro m hm
  rw [hasp] at hm
  obtain ⟨pr, hpr, hpa⟩ := mem_findAspects.1 hm
  obtain ⟨hma, hmb⟩ := pairAspect_names hpa
  have h1 := mem_canonPairs hpr
  have hsome1 : (f pr.1).isSome = true := by
    have h2 := h1.1
    unfold namesForAspects at h2
    exact (List.mem_filter.1 h2).2
  have hsome2 : (f pr.2).isSome = true := by
    have h2 := h1.2
    unfold namesForAspects at h2
    exact (List.mem_filter.1 h2).2
  rw [hpl, hma, hmb]
  exact ⟨natalBodyLons_isSome hf pr.1 hsome1, natalBodyLons_isSome hf pr.2 hsome2⟩

/-- Oracle computing Sun at 10° and Moon at 190°, raising for every
other body. -/
def sweSM : SweOracle :=
  ⟨fun l => if l = "Sun" then .ok [10, 0] else if l = "Moon" then .ok [190, 0] else .exn "boom",
   fun _ => .exn "boom", fun _ => .exn "boom"⟩

def ephSM : Ephem := ⟨sweSM, .error "boom", .ok 0, .ok 0, fun _ => .ok 0⟩

def respSM : NatalResponse :=
  match natal ephSM tz0 inp0 with
  | .ok r => r
  | .error _ => fallbackResponse

/-- The `body_lons` mapping the Sun/Moon run builds. -/
def fSM : String → Option ℚ :=
  match natalBodyLons (PLANET_LABELS.map (planetEntry ephSM.swe) ++ nodeEntries ephSM) with
  | .ok f => f
  | .error _ => fun _ => none

theorem pdSM : pairDist fSM "Sun" "Moon" = 180 := by
  have e1 : fSM "Sun" = some (round4 (pymod 10 360)) := rfl
  have e2 : fSM "Moon" = some (round4 (pymod 190 360)) := rfl
  have v1 : round4 (pymod 10 360) = 10 := by
    rw [pymod_eq_self (by norm_num) (by norm_num)]
    norm_num [round4, round_eq]
  have v2 : round4 (pymod 190 360) = 190 := by
    rw [pymod_eq_self (by norm_num) (by norm_num)]
    norm_num [round4, round_eq]
  unfold pairDist
  rw [e1, e2]
  simp only [Option.getD_some]
  rw [v1, v2]
  rw [pymod_eq_self (by norm_num) (by norm_num), pymod_eq_self (by norm_num) (by norm_num)]
  rw [show |(10 : ℚ) - 190| = 180 by
    rw [abs_sub_comm, abs_of_nonneg (by norm_num : (0 : ℚ) ≤ 190 - 10)]; norm_num]
  norm_num

theorem paSM : pairAspect fSM "Sun" "Moon" = some oppositionSunMoon := by
  unfold pairAspect
  simp only [pdSM, findOpp]
  norm_num [oppositionSunMoon, round2, round_eq]

theorem faSM : findAspects fSM = [oppositionSunMoon] := by
  rw [findAspects, (by decide : namesForAspects fSM = ["Sun", "Moon"])]
  simp [aspectLoop, paSM]

/-- Witness for C10's theorem on the Sun/Moon run: the recorded
opposition names only the two successfully computed bodies. -/
theorem aspects_only_over_computed_bodies_witness :
    natal ephSM tz0 inp0 = .ok respSM ∧
    oppositionSunMoon ∈ respSM.aspects ∧
    ((∃ q ∈ respSM.planets, q.isOk = true ∧ q.name = oppositionSunMoon.a) ∧
     (∃ q ∈ respSM.planets, q.isOk = true ∧ q.name = oppositionSunMoon.b)) := by
  have h0 : natal ephSM tz0 inp0 = .ok respSM := rfl
  have hfval : natalBodyLons (PLANET_LABELS.map (planetEntry ephSM.swe) ++ nodeEntries ephSM) =
      .ok fSM := rfl
  obtain ⟨-, f, hf, hasp, -⟩ := natalCore_ok_shape (natal_ok_core h0)
  have hff : f = fSM := by
    rw [hfval] at hf
    exact (Except.ok.inj hf).symm
  have hmem : oppositionSunMoon ∈ respSM.aspects := by
    rw [hasp, hff, faSM]
    exact List.mem_singleton.2 rfl
  exact ⟨h0, hmem,
    aspects_only_over_computed_bodies ephSM tz0 inp0 respSM h0 oppositionSunMoon hmem⟩

/-! ### What the format match consumes -/

theorem firstSome_some {β : Type} :
    ∀ {alts : List (Nat × List Char)} {k : Nat → List Char → Option β} {r : β},
      firstSome alts k = some r → ∃ v s, (v, s) ∈ alts ∧ k v s = some r := by
  intro alts
  induction alts with
  | nil =>
    intro k r h
    exact absurd h (by simp [firstSome])
  | cons a more ih =>
    intro k r h
    obtain ⟨v, s⟩ := a
    unfold firstSome at h
    split at h
    next r' hk =>
      cases h
      exact ⟨v, s, List.mem_cons_self _ _, hk⟩
    next =>
      obtain ⟨v', s', hm, hk⟩ := ih h
      exact ⟨v', s', List.mem_cons_of_mem _ hm, hk⟩

theorem lit_suffix {c : Char} {cs s : List Char} (h : lit c cs = some s) : s <:+ cs := by
  cases cs with
  | nil => exact absurd h (by simp [lit])
  | cons a rest =>
    have h2 : (if (a == c) = true then some rest else none) = some s := h
    by_cases hc : (a == c) = true
    · rw [if_pos hc] at h2
      cases h2
      exact ⟨[a], rfl⟩
    · rw [if_neg hc] at h2
      exact Option.noConfusion h2

theorem yearAlts_suffix {cs s : List Char} {v : Nat} (h : (v, s) ∈ yearAlts cs) : s <:+ cs := by
  rcases cs with _ | ⟨a, _ | ⟨b, _ | ⟨c, _ | ⟨d, rest⟩⟩⟩⟩ <;> simp [yearAlts] at h
  obtain ⟨-, -, hs⟩ := h
  subst hs
  exact ⟨[a, b, c, d], rfl⟩

theorem monthAlts_suffix {cs s : List Char} {v : Nat} (h : (v, s) ∈ monthAlts cs) :
    s <:+ cs := by
  rcases cs with _ | ⟨a, _ | ⟨b, rest⟩⟩ <;> simp [monthAlts] at h
  · obtain ⟨-, -, hs⟩ := h
    subst hs
    exact ⟨[a], rfl⟩
  · rcases h with ⟨-, -, hs⟩ | ⟨-, -, hs⟩ | ⟨-, -, hs⟩
    · subst hs
      exact ⟨[a, b], rfl⟩
    · subst hs
      exact ⟨[a, b], rfl⟩
    · subst hs
      exact ⟨[a], rfl⟩

theorem dayAlts_suffix {cs s : List Char} {v : Nat} (h : (v, s) ∈ dayAlts cs) :
    s <:+ cs := by
  rcases cs with _ | ⟨a, _ | ⟨b, rest⟩⟩ <;> simp [dayAlts] at h
  · obtain ⟨-, -, hs⟩ := h
    subst hs
    exact ⟨[a], rfl⟩
  · rcases h with ⟨-, -, hs⟩ | ⟨-, -, hs⟩ | ⟨-, -, hs⟩ | ⟨-, -, hs⟩
    · subst hs
      exact ⟨[a, b], rfl⟩
    · subst hs
      exact ⟨[a, b], rfl⟩
    · subst hs
      exact ⟨[a, b], rfl⟩
    · subst hs
      exact ⟨[a], rfl⟩

theorem hourAlts_suffix {cs s : List Char} {v : Nat} (h : (v, s) ∈ hourAlts cs) :
    s <:+ cs := by
  rcases cs with _ | ⟨a, _ | ⟨b, rest⟩⟩ <;> simp [hourAlts] at h
  · obtain ⟨-, -, hs⟩ := h
    subst hs
    exact ⟨[a], rfl⟩
  · rcases h with ⟨-, -, hs⟩ | ⟨-, -, hs⟩ | ⟨-, -, hs⟩
    · subst hs
      exact ⟨[a, b], rfl⟩
    · subst hs
      exact ⟨[a, b], rfl⟩
    · subst hs
      exact ⟨[a], rfl⟩

theorem minuteAlts_shape {cs s : List Char} {v : Nat} (h : (v, s) ∈ minuteAlts cs) :
    ∃ pre d, d.isDigit = true ∧ cs = pre ++ d :: s := by
  rcases cs with _ | ⟨a, _ | ⟨b, rest⟩⟩ <;> simp [minuteAlts] at h
  · obtain ⟨hd, -, hs⟩ := h
    subst hs
    exact ⟨[], a, hd, rfl⟩
  · rcases h with ⟨⟨⟨-, -⟩, hbd⟩, -, hs⟩ | ⟨had, -, hs⟩
    · subst hs
      exact ⟨[a], b, hbd, rfl⟩
    · subst hs
      exact ⟨[], a, had, rfl⟩

theorem matchFormat_rest {cs : List Char} {t : Nat × Nat × Nat × Nat × Nat}
    {rest : List Char} (h : matchFormat cs = some (t, rest)) :
    ∃ pre d, d.isDigit = true ∧ cs = pre ++ d :: rest := by
  unfold matchFormat at h
  obtain ⟨y, s1, hy, h⟩ := firstSome_some h
  obtain ⟨s2, h2, h⟩ := Option.bind_eq_some.1 h
  obtain ⟨mo, s3, hmo, h⟩ := firstSome_some h
  obtain ⟨s4, h4, h⟩ := Option.bind_eq_some.1 h
  obtain ⟨dd, s5, hdd, h⟩ := firstSome_some h
  obtain ⟨s6, h6, h⟩ := Option.bind_eq_some.1 h
  obtain ⟨hv, s7, hh7, h⟩ := firstSome_some h
  obtain ⟨s8, h8, h⟩ := Option.bind_eq_some.1 h
  obtain ⟨mi, s9, hmi, h⟩ := firstSome_some h
  have h9 : s9 = rest := congrArg Prod.snd (Option.some.inj h)
  subst h9
  obtain ⟨pre1, d, hd, hshape⟩ := minuteAlts_shape hmi
  have hsfx : s8 <:+ cs :=
    ((((((((lit_suffix h8).trans (hourAlts_suffix hh7)).trans (lit_suffix h6)).trans
      (dayAlts_suffix hdd)).trans (lit_suffix h4)).trans (monthAlts_suffix hmo)).trans
      (lit_suffix h2)).trans (yearAlts_suffix hy))
  obtain ⟨pre0, hpre0⟩ := hsfx
  refine ⟨pre0 ++ pre1, d, hd, ?_⟩
  rw [← hpre0, hshape, List.append_assoc]

theorem strptime_blank_time (date : String) :
    ∃ msg, strptime_natal date "" = .error msg := by
  unfold strptime_natal
  cases hm : matchFormat (date ++ " " ++ "").toList with
  | none => exact ⟨_, rfl⟩
  | some pr =>
    obtain ⟨t, rest⟩ := pr
    obtain ⟨y, mo, d, hh, mi⟩ := t
    by_cases hrest : rest = []
    · exfalso
      subst hrest
      obtain ⟨pre, dch, hd, hshape⟩ := matchFormat_rest hm
      have hcs : (date ++ " " ++ "").toList = date.toList ++ [' '] := by
        show (date ++ " " ++ "").data = date.data ++ [' ']
        rw [String.data_append, String.data_append, List.append_assoc]
        rfl
      rw [hcs] at hshape
      have hlast : some ' ' = some dch := by
        have h1 := congrArg List.getLast? hshape
        rw [List.getLast?_concat] at h1
        rw [show pre ++ dch :: ([] : List Char) = pre ++ [dch] from rfl,
          List.getLast?_concat] at h1
        exact h1
      have hdsp : dch = ' ' := (Option.some.inj hlast).symm
      rw [hdsp] at hd
      exact absurd hd (by decide)
    · have hre : rest.isEmpty = false := by
        cases rest
        · exact absurd rfl hrest
        · rfl
      refine ⟨"unconverted data remains: " ++ String.mk rest, ?_⟩
      show (if rest.isEmpty = true then _ else _) = _
      rw [hre]
      simp

/-- All three `swe.calc_ut` attempts return a well-formed tuple. -/
def sweOk : SweOracle :=
  ⟨fun _ => .ok [10, 0, 1], fun _ => .ok [10, 0, 1], fun _ => .ok [10, 0, 1]⟩

def ephOk : Ephem := ⟨sweOk, .ok 100, .ok 0, .ok 90, fun _ => .ok 0⟩

def rawNoTime : RawNatal := ⟨some "2000-01-01", none, some "UTC", some 0, some 0, none⟩

def rawBlankTime : RawNatal := ⟨some "2000-01-01", some "", some "UTC", some 0, some 0, none⟩

/-- C3 counterexample: with birth date 2000-01-01 and no time, the
request fails validation with a 422; with a blank time it fails with a
500 parse error.  In neither case is noon assumed, a time-assumed flag
set, or any planetary body populated. -/
theorem no_noon_assumption_counterexample :
    serve ephOk tz0 rawNoTime = .error ⟨422, "Field required: time"⟩ ∧
    serve ephOk tz0 rawBlankTime = .error ⟨500,
      "Calculation error: time data '2000-01-01 ' does not match format '%Y-%m-%d %H:%M'"⟩ :=
  ⟨rfl, rfl⟩

/-- C3 amended: `time` is a required field — an absent time fails
request validation (422) before the handler runs, and a blank time
makes the handler fail with a 500 calculation error; there is no
solar-noon assumption and no time-assumed flag, and every successful
response carries all 12 house cusps. -/
theorem time_required_no_noon_assumption :
    (∀ (e : Ephem) (tzdb : TZDB) (raw : RawNatal) (d : String),
      raw.date = some d → raw.time = none →
      serve e tzdb raw = .error ⟨422, "Field required: time"⟩) ∧
    (∀ (e : Ephem) (tzdb : TZDB) (p : NatalInput), p.time = "" →
      ∃ err, natal e tzdb p = .error err ∧ err.status = 500) ∧
    (∀ (e : Ephem) (tzdb : TZDB) (p : NatalInput) (r : NatalResponse),
      natal e tzdb p = .ok r → r.houses.length = 12) := by
  refine ⟨?_, ?_, ?_⟩
  · intro e tzdb raw d hd ht
    unfold serve parseNatalInput
    rw [hd, ht]
  · intro e tzdb p ht
    cases htz : tzdb p.timezone with
    | none =>
      refine ⟨⟨500,
        "Calculation error: Invalid timezone string. Use IANA, e.g., 'America/New_York'."⟩,
        ?_, rfl⟩
      unfold natal natalCore to_utc_iso
      rw [htz]
      exact rfl
    | some conv =>
      obtain ⟨msg, hmsg⟩ := strptime_blank_time p.date
      refine ⟨⟨500, "Calculation error: " ++ msg⟩, ?_, rfl⟩
      unfold natal natalCore to_utc_iso
      rw [htz, ht, hmsg]
  · intro e tzdb p r h
    obtain ⟨-, f, hf, hasp, hs, hhs, hrh⟩ := natalCore_ok_shape (natal_ok_core h)
    rw [hrh, housesListAux_length e.cusp _ _ hhs]
    decide

/-- Witness for C3's amended theorem: the all-bodies-failing run still
returns all 12 house cusps. -/
theorem time_required_no_noon_assumption_witness : resp0F.houses.length = 12 :=
  time_required_no_noon_assumption.2.2 ephFail tz0 inp0 resp0F rfl

def tzEmpty : TZDB := fun _ => none

def inpBadTz : NatalInput := ⟨"2000-01-01", "12:00", "Nowhere/City", 0, 0, "Placidus"⟩

/-- C4 counterexample: an unknown timezone is rejected with HTTP 500 —
a server-error status, not a client-error one. -/
theorem client_error_claim_counterexample :
    natal ephOk tzEmpty inpBadTz = .error ⟨500,
      "Calculation error: Invalid timezone string. Use IANA, e.g., 'America/New_York'."⟩ ∧
    ¬(400 ≤ 500 ∧ 500 < 500) := ⟨rfl, by decide⟩

/-- C4 amended: unknown timezones and unparseable time strings make the
request fail with a human-readable message, but inside a 500
server-error response (the handler's catch-all), not a client-error
one; and the time format is `strptime`-lenient — `"9:5"` is accepted —
so not every string outside strict `HH:MM` is rejected. -/
theorem validation_errors_surface_as_500 :
    (∀ (e : Ephem) (tzdb : TZDB) (p : NatalInput), tzdb p.timezone = none →
      natal e tzdb p = .error ⟨500,
        "Calculation error: Invalid timezone string. Use IANA, e.g., 'America/New_York'."⟩) ∧
    (∀ (e : Ephem) (tzdb : TZDB) (p : NatalInput) (conv : DT → DT) (msg : String),
      tzdb p.timezone = some conv → strptime_natal p.date p.time = .error msg →
      natal e tzdb p = .error ⟨500, "Calculation error: " ++ msg⟩) ∧
    strptime_natal "2000-01-01" "9:5" = .ok (2000, 1, 1, 9, 5) := by
  refine ⟨?_, ?_, rfl⟩
  · intro e tzdb p htz
    unfold natal natalCore to_utc_iso
    rw [htz]
    exact rfl
  · intro e tzdb p conv msg htz hstr
    unfold natal natalCore to_utc_iso
    rw [htz, hstr]

/-- Witness for C4's amended theorem at a concrete unknown-zone
request. -/
theorem validation_errors_surface_as_500_witness :
    natal ephOk tzEmpty inpBadTz = .error ⟨500,
      "Calculation error: Invalid timezone string. Use IANA, e.g., 'America/New_York'."⟩ :=
  validation_errors_surface_as_500.1 ephOk tzEmpty inpBadTz rfl

/-- C5 counterexample: the live validator is case-sensitive and
alias-blind — lowercase and spaced spellings the claim says are
accepted fail validation — and the key set it enumerates has 8 names,
not 7. -/
theorem house_alias_matching_counterexample :
    valid_house "placidus" = .error houseErrorMsg ∧
    valid_house "whole sign" = .error houseErrorMsg ∧
    HOUSE_MAP_KEYS.length = 8 := ⟨rfl, rfl, rfl⟩

/-- C5 amended: the house-system validator accepts exactly the eight
literal keys of `HOUSE_MAP` (Placidus, Koch, Porphyry, Porphyrius,
Regiomontanus, Campanus, Equal, WholeSign) by case-sensitive exact
match; any other value fails request validation (422) before any
ephemeris oracle is consulted, with a message listing those eight
keys.  (The case/alias-insensitive module-level validator in the source
is never attached to the model and has no effect.) -/
theorem house_validator_exact_match :
    (∀ v, valid_house v = .ok v ↔ v ∈ HOUSE_MAP_KEYS) ∧
    houseErrorMsg = "house_system must be one of: Placidus, Koch, Porphyry, Porphyrius, Regiomontanus, Campanus, Equal, WholeSign" ∧
    (∀ v, v ∉ HOUSE_MAP_KEYS → valid_house v = .error houseErrorMsg) ∧
    (∀ (e e' : Ephem) (tzdb tzdb' : TZDB) (raw : RawNatal)
        (d t z : String) (la lo : ℚ) (hs : String),
      raw = ⟨some d, some t, some z, some la, some lo, some hs⟩ →
      hs ∉ HOUSE_MAP_KEYS →
      serve e tzdb raw = .error ⟨422, houseErrorMsg⟩ ∧
      serve e tzdb raw = serve e' tzdb' raw) := by
  have hbridge : ∀ v : String, HOUSE_MAP_KEYS.contains v = true ↔ v ∈ HOUSE_MAP_KEYS :=
    fun v => List.elem_iff
  have hcontains_false : ∀ v : String, v ∉ HOUSE_MAP_KEYS →
      HOUSE_MAP_KEYS.contains v = false := by
    intro v hv
    cases hcc : HOUSE_MAP_KEYS.contains v
    · rfl
    · exact absurd ((hbridge v).1 hcc) hv
  have hvfail : ∀ v : String, v ∉ HOUSE_MAP_KEYS → valid_house v = .error houseErrorMsg := by
    intro v hv
    unfold valid_house
    rw [hcontains_false v hv]
    exact rfl
  have hparse : ∀ (d t z : String) (la lo : ℚ) (hs : String), hs ∉ HOUSE_MAP_KEYS →
      parseNatalInput ⟨some d, some t, some z, some la, some lo, some hs⟩ =
        .error houseErrorMsg := by
    intro d t z la lo hs hmem
    show (match valid_house hs with
          | .error e => Except.error e
          | .ok hs' => Except.ok (NatalInput.mk d t z la lo hs')) =
        Except.error houseErrorMsg
    rw [hvfail hs hmem]
  refine ⟨?_, rfl, hvfail, ?_⟩
  · intro v
    unfold valid_house
    by_cases hc : HOUSE_MAP_KEYS.contains v = true
    · rw [if_pos hc]
      exact ⟨fun _ => (hbridge v).1 hc, fun _ => rfl⟩
    · rw [if_neg hc]
      constructor
      · intro h
        exact Except.noConfusion h
      · intro hm
        exact absurd ((hbridge v).2 hm) hc
  · intro e e' tzdb tzdb' raw d t z la lo hs hraw hmem
    subst hraw
    constructor
    · unfold serve
      rw [hparse d t z la lo hs hmem]
    · unfold serve
      rw [hparse d t z la lo hs hmem]

def rawFoo : RawNatal := ⟨some "2000-01-01", some "12:00", some "UTC", some 0, some 0, some "Foo"⟩

/-- Witness for C5's amended theorem at the spec's own example value
"Foo". -/
theorem house_validator_exact_match_witness :
    serve ephOk tz0 rawFoo = .error ⟨422, houseErrorMsg⟩ ∧
    serve ephOk tz0 rawFoo = serve ephFail tzEmpty rawFoo :=
  house_validator_exact_match.2.2.2 ephOk ephFail tz0 tzEmpty rawFoo
    "2000-01-01" "12:00" "UTC" 0 0 "Foo" rfl (by decide)

/-- C9 (modelled from the spec — src/app.py contains no authorization
code): with a configured shared secret, any request without a matching
header value is rejected as unauthorized before any computation; with
no secret configured, every request goes straight to the handler. -/
theorem auth_gate_spec :
    (∀ (s : String) (header : Option String) (e : Ephem) (tzdb : TZDB) (raw : RawNatal),
      header ≠ some s →
      authServe (some s) header e tzdb raw = .error ⟨401, "Unauthorized"⟩) ∧
    (∀ (header : Option String) (e : Ephem) (tzdb : TZDB) (raw : RawNatal),
      authServe none header e tzdb raw = serve e tzdb raw) := by
  constructor
  · intro s header e tzdb raw hne
    have hb : (header == some s) = false := by
      cases hbb : header == some s
      · rfl
      · exact absurd (eq_of_beq hbb) hne
    show (if (header == some s) = true then serve e tzdb raw
          else Except.error ⟨401, "Unauthorized"⟩) =
        Except.error ⟨401, "Unauthorized"⟩
    rw [hb]
    exact rfl
  · intro header e tzdb raw
    rfl

/-- Witness for C9's theorem: a missing header against a configured
secret is rejected, independent of the oracles. -/
theorem auth_gate_spec_witness :
    authServe (some "secret-token") none ephOk tz0 rawFoo = .error ⟨401, "Unauthorized"⟩ :=
  auth_gate_spec.1 "secret-token" none ephOk tz0 rawFoo
    (fun h => Option.noConfusion h)
